import Mathlib

/-!
A shallow embedding of the 2PC simulator (coordinator.rs, participant.rs)
together with proofs about its vote collection, decision rule, logging and
message-sending behaviour.

Machine integers (`u32` counters, `opid`) are modelled as `Nat`: the program
only ever increments them by one per event, so overflow is unreachable in any
run the claims quantify over.  The `f64` probability draws are modelled as
rationals: the only operation performed on them is the comparison `x <= p`,
whose branch outcome is all that matters here.
-/

namespace TwoPC

/-- Modelled from the spec: the nine message kinds of `message.rs`
(`MessageType`), a file declared in `main.rs` but not present in the
sources. -/
inductive MessageType where
  | ClientRequest
  | ClientResultCommit
  | ClientResultAbort
  | CoordinatorPropose
  | CoordinatorCommit
  | CoordinatorAbort
  | CoordinatorExit
  | ParticipantVoteCommit
  | ParticipantVoteAbort
deriving DecidableEq, Repr

/-- Modelled from the spec: `RequestStatus` of `message.rs` (not present in
the sources). -/
inductive RequestStatus where
  | Unknown
  | Committed
  | Aborted
deriving DecidableEq, Repr

/-- Modelled from the spec: `ProtocolMessage` of `message.rs` (not present in
the sources): the sole payload on every channel. -/
structure ProtocolMessage where
  mtype : MessageType
  txid : String
  senderid : String
  opid : Nat
  reqstatus : RequestStatus
deriving DecidableEq, Repr

/-- Modelled from the spec: `ProtocolMessage::generate` sets
`reqstatus = Unknown`. -/
def ProtocolMessage.generate (mtype : MessageType) (txid : String)
    (senderid : String) (opid : Nat) : ProtocolMessage :=
  ⟨mtype, txid, senderid, opid, RequestStatus.Unknown⟩

/-- Modelled from the spec: one line of the append-only oplog (`oplog.rs`, not
present in the sources): `append(mtype, txid, senderid, opid)` writes these
four fields. The log itself is the list of records in append order. -/
structure LogRecord where
  mtype : MessageType
  txid : String
  senderid : String
  opid : Nat
deriving DecidableEq, Repr

/-- `CoordinatorState` from coordinator.rs. -/
inductive CoordinatorState where
  | Quiescent
  | ReceivedRequest
  | ProposalSent
  | ReceivedVotesAbort
  | ReceivedVotesCommit
  | SentGlobalDecision
deriving DecidableEq, Repr

/-- The mutable fields of the `Coordinator` struct that the protocol code
touches: the counters, the oplog (as the list of appended records), the
`running` flag, and the (never updated) state machine field. -/
structure Coordinator where
  state : CoordinatorState
  running : Bool
  log : List LogRecord
  global_commit : Nat
  commit : Nat
  global_abort : Nat
  abort : Nat
  unknown : Nat
deriving DecidableEq, Repr

/-- One outcome of `self.participant_rx.try_recv()` inside `collect_votes`,
as seen by the loop body: a received message, an `Empty` error (tagged with
whether `start.elapsed() >= timeout_duration` held at that poll), or an
`IpcError`. A run of the loop is driven by the list of these outcomes. -/
inductive PollResult where
  | msg (m : ProtocolMessage)
  | empty (timedOut : Bool)
  | ipcError
deriving DecidableEq, Repr

/-- Externally observable actions of the coordinator, in program order: a
channel send to a named participant, an oplog append, a channel send to a
named client, and the `println!("No client exists")` fallback. -/
inductive CoordEvent where
  | sendParticipant (name : String) (m : ProtocolMessage)
  | logAppend (r : LogRecord)
  | sendClient (name : String) (m : ProtocolMessage)
  | printNoClient
deriving DecidableEq, Repr

/-- `collect_votes` of coordinator.rs, driven by the list of `try_recv`
outcomes. Returns `none` when the outcome list is exhausted with the loop
still running (the real loop would keep polling), otherwise the state at the
`break` together with the returned `votes` vector. `nparts` is
`self.participants.len()`. -/
def collect_votes (nparts : Nat) (polls : List PollResult)
    (s : Coordinator) (votes : List MessageType) :
    Option (Coordinator × List MessageType) :=
  match polls with
  | [] => none
  | PollResult.msg m :: rest =>
    match m.mtype with
    | MessageType.ParticipantVoteCommit =>
      collect_votes nparts rest
        { s with commit := s.commit + 1,
                 log := s.log ++ [⟨MessageType.ParticipantVoteCommit, m.txid, m.senderid, m.opid⟩] }
        (votes ++ [MessageType.ParticipantVoteCommit])
    | MessageType.ParticipantVoteAbort =>
      collect_votes nparts rest
        { s with abort := s.abort + 1,
                 log := s.log ++ [⟨MessageType.ParticipantVoteCommit, m.txid, m.senderid, m.opid⟩] }
        (votes ++ [MessageType.ParticipantVoteAbort])
    | _ => collect_votes nparts rest s votes
  | PollResult.empty timedOut :: rest =>
    if votes.length = nparts then
      some (s, votes)
    else if timedOut then
      some ({ s with unknown := s.unknown + 1,
                     log := s.log ++ [⟨MessageType.ParticipantVoteAbort, "None", "None", 0⟩] },
            votes ++ [MessageType.ParticipantVoteAbort])
    else
      collect_votes nparts rest s votes
  | PollResult.ipcError :: rest => collect_votes nparts rest s votes

/-- The decision rule applied to the collected votes in
`receive_client_request`: commit iff `votes.iter().all(|&vote| vote ==
MessageType::ParticipantVoteCommit)`. -/
def decideVotes (votes : List MessageType) : MessageType :=
  if votes.all (fun vote => vote = MessageType.ParticipantVoteCommit) then
    MessageType.CoordinatorCommit
  else
    MessageType.CoordinatorAbort

/-- `send_prepare_message` of coordinator.rs: for each participant, generate a
`CoordinatorPropose` reusing the request's txid, senderid and opid, and send
it. `participants` is the list of keys of the participants map. -/
def send_prepare_message (participants : List String) (pm : ProtocolMessage) :
    List CoordEvent :=
  participants.map (fun name =>
    CoordEvent.sendParticipant name
      (ProtocolMessage.generate MessageType.CoordinatorPropose pm.txid pm.senderid pm.opid))

/-- `send_decision_message` of coordinator.rs: send the decision message to
every participant, then append it to the oplog. Returns the updated state and
the events in program order. -/
def send_decision_message (participants : List String)
    (decision : ProtocolMessage) (s : Coordinator) :
    Coordinator × List CoordEvent :=
  ({ s with log := s.log ++ [⟨decision.mtype, decision.txid, decision.senderid, decision.opid⟩] },
   participants.map (fun name => CoordEvent.sendParticipant name decision)
     ++ [CoordEvent.logAppend ⟨decision.mtype, decision.txid, decision.senderid, decision.opid⟩])

/-- The body of the `MessageType::ClientRequest` arm of
`receive_client_request` in coordinator.rs: send prepare messages, collect
votes, decide, bump the matching global counter, send the decision to all
participants, and send the client result to the client named by
`message.senderid` (printing `"No client exists"` when the client table lacks
that key). Returns the final state, the decision, the collected votes and the
events in program order; `none` when the vote-collection poll trace is
exhausted. -/
def receive_client_request_once (participants clients : List String)
    (message : ProtocolMessage) (polls : List PollResult) (s : Coordinator) :
    Option (Coordinator × MessageType × List MessageType × List CoordEvent) :=
  let prepEvents := send_prepare_message participants message
  match collect_votes participants.length polls s [] with
  | none => none
  | some (s1, votes) =>
    let decision := decideVotes votes
    let s2 :=
      if decision = MessageType.CoordinatorCommit then
        { s1 with global_commit := s1.global_commit + 1 }
      else
        { s1 with global_abort := s1.global_abort + 1 }
    let mes := { message with mtype := decision }
    let (s3, decEvents) := send_decision_message participants mes s2
    let client_decision :=
      if decision = MessageType.CoordinatorCommit then
        MessageType.ClientResultCommit
      else
        MessageType.ClientResultAbort
    let client_result := { message with mtype := client_decision }
    let clientEvents :=
      if clients.contains message.senderid then
        [CoordEvent.sendClient message.senderid client_result]
      else
        [CoordEvent.printNoClient]
    some (s3, decision, votes, prepEvents ++ decEvents ++ clientEvents)

/-- `ParticipantState` from participant.rs. -/
inductive ParticipantState where
  | Quiescent
  | ReceivedP1
  | VotedAbort
  | VotedCommit
  | AwaitingGlobalDecision
deriving DecidableEq, Repr

/-- The mutable fields of the `Participant` struct that the protocol code
touches, plus its configuration. The probability fields are the `f64`
configuration values; the random draws are passed to each operation as
explicit inputs. -/
structure Participant where
  id_str : String
  state : ParticipantState
  running : Bool
  send_success_prob : ℚ
  operation_success_prob : ℚ
  log : List LogRecord
  abort : Nat
  commit : Nat
  unknown : Nat
deriving DecidableEq, Repr

/-- `Participant::send` of participant.rs, with the random draw `x` explicit.
The source builds a copy `mes` of `pm` with `senderid` rewritten to
`self.id_str`, but then transmits the original `pm`; `mes` is never used.
Returns the updated participant and the transmitted message (`none` when the
draw drops it). -/
def Participant.send (p : Participant) (pm : ProtocolMessage) (x : ℚ) :
    Participant × Option ProtocolMessage :=
  let mes := { pm with senderid := p.id_str }
  if x ≤ p.send_success_prob then
    let p' :=
      if pm.mtype = MessageType.ParticipantVoteCommit then
        { p with commit := p.commit + 1 }
      else
        { p with abort := p.abort + 1 }
    (p', some pm)
  else
    ({ p with unknown := p.unknown + 1 }, none)

/-- `Participant::perform_operation` of participant.rs, with the random draw
`x` explicit: on `some message`, append a `ParticipantVoteCommit` record and
succeed when `x <= operation_success_prob`, else append a
`ParticipantVoteAbort` record and fail; on `none`, do nothing and fail. -/
def Participant.perform_operation (p : Participant)
    (request_option : Option ProtocolMessage) (x : ℚ) : Participant × Bool :=
  match request_option with
  | some message =>
    if x ≤ p.operation_success_prob then
      ({ p with log := p.log ++ [⟨MessageType.ParticipantVoteCommit, message.txid, message.senderid, message.opid⟩] },
       true)
    else
      ({ p with log := p.log ++ [⟨MessageType.ParticipantVoteAbort, message.txid, message.senderid, message.opid⟩] },
       false)
  | none => (p, false)

/-- One iteration of the receive loop of `Participant::protocol` in
participant.rs, handling one successfully received `message`. `xOp` and
`xSend` are the random draws consumed by `perform_operation` and `send` (on
the `CoordinatorPropose` path; other arms draw nothing). Returns the updated
participant, whether the loop continues (`false` exactly when the arm
`break`s), and the message transmitted to the coordinator, if any. The
trailing `self.log.append(message...)` runs only when the arm falls through
to it, i.e. not on `CoordinatorExit`. -/
def Participant.protocolStep (p : Participant) (message : ProtocolMessage)
    (xOp xSend : ℚ) : Participant × Bool × Option ProtocolMessage :=
  match message.mtype with
  | MessageType.CoordinatorPropose =>
    let (p1, ok) := p.perform_operation (some message) xOp
    let mes :=
      if ok then { message with mtype := MessageType.ParticipantVoteCommit }
      else { message with mtype := MessageType.ParticipantVoteAbort }
    let (p2, sent) := p1.send mes xSend
    ({ p2 with log := p2.log ++ [⟨message.mtype, message.txid, message.senderid, message.opid⟩] },
     true, sent)
  | MessageType.CoordinatorCommit =>
    ({ p with log := p.log ++ [⟨message.mtype, message.txid, message.senderid, message.opid⟩] },
     true, none)
  | MessageType.CoordinatorAbort =>
    ({ p with log := p.log ++ [⟨message.mtype, message.txid, message.senderid, message.opid⟩] },
     true, none)
  | MessageType.CoordinatorExit => (p, false, none)
  | _ =>
    ({ p with log := p.log ++ [⟨message.mtype, message.txid, message.senderid, message.opid⟩] },
     true, none)

/-- Recognizer for a send-to-participant event. -/
def CoordEvent.isSend : CoordEvent → Bool
  | CoordEvent.sendParticipant _ _ => true
  | _ => false

/-- Recognizer for an oplog-append event. -/
def CoordEvent.isLogAppend : CoordEvent → Bool
  | CoordEvent.logAppend _ => true
  | _ => false

/-- The components of a `collect_votes` result that the protocol goes on to
use: the oplog, the per-vote counters, the votes vector and the decision it
induces. (The `running` flag and the untouched global counters are
excluded so runs started with different flag values can be compared.) -/
def voteObservables (r : Option (Coordinator × List MessageType)) :
    Option (List LogRecord × Nat × Nat × Nat × List MessageType × MessageType) :=
  r.map (fun x => (x.1.log, x.1.commit, x.1.abort, x.1.unknown, x.2, decideVotes x.2))

/-- A coordinator in its initial state (fresh log, zero counters). -/
def coord0 : Coordinator :=
  ⟨CoordinatorState.Quiescent, true, [], 0, 0, 0, 0, 0⟩

/-- A fresh participant with both success probabilities 1. -/
def part0 : Participant :=
  ⟨"participant_0", ParticipantState.Quiescent, true, 1, 1, [], 0, 0, 0⟩

/-- A sample client request. -/
def req0 : ProtocolMessage :=
  ProtocolMessage.generate MessageType.ClientRequest "client_0_op_1" "client_0" 1

/-- A sample commit vote as received from a participant. -/
def voteCommitMsg0 : ProtocolMessage :=
  ProtocolMessage.generate MessageType.ParticipantVoteCommit "client_0_op_1" "client_0" 1

/-- A sample abort vote as received from a participant. -/
def voteAbortMsg0 : ProtocolMessage :=
  ProtocolMessage.generate MessageType.ParticipantVoteAbort "client_0_op_1" "client_0" 1

/-- The exit broadcast the coordinator sends at shutdown. -/
def exitMsg0 : ProtocolMessage :=
  ProtocolMessage.generate MessageType.CoordinatorExit "exit" "exit" 0

/-- A sample proposal as received by a participant. -/
def proposeMsg0 : ProtocolMessage :=
  ProtocolMessage.generate MessageType.CoordinatorPropose "client_0_op_1" "client_0" 1

/-- The coordinator state after processing `req0` with one participant whose
single commit vote arrives: the vote logged (as a commit record), the decision
logged, both the per-vote and the global commit counters bumped. -/
def coordAfterC1 : Coordinator :=
  ⟨CoordinatorState.Quiescent, true,
   [⟨MessageType.ParticipantVoteCommit, "client_0_op_1", "client_0", 1⟩,
    ⟨MessageType.CoordinatorCommit, "client_0_op_1", "client_0", 1⟩],
   1, 1, 0, 0, 0⟩

/-- The events of that same run, in program order: propose, decision send,
decision log append, client reply. -/
def eventsC1 : List CoordEvent :=
  [CoordEvent.sendParticipant "participant_0"
     ⟨MessageType.CoordinatorPropose, "client_0_op_1", "client_0", 1, RequestStatus.Unknown⟩,
   CoordEvent.sendParticipant "participant_0"
     ⟨MessageType.CoordinatorCommit, "client_0_op_1", "client_0", 1, RequestStatus.Unknown⟩,
   CoordEvent.logAppend ⟨MessageType.CoordinatorCommit, "client_0_op_1", "client_0", 1⟩,
   CoordEvent.sendClient "client_0"
     ⟨MessageType.ClientResultCommit, "client_0_op_1", "client_0", 1, RequestStatus.Unknown⟩]

/-- The coordinator state after a one-participant vote collection whose only
vote is `voteAbortMsg0`: the abort counter is bumped, yet the logged record
carries kind `ParticipantVoteCommit`. -/
def coordAfterC5 : Coordinator :=
  ⟨CoordinatorState.Quiescent, true,
   [⟨MessageType.ParticipantVoteCommit, "client_0_op_1", "client_0", 1⟩],
   0, 0, 0, 1, 0⟩

/-- The coordinator state after processing `req0` with zero participants:
vote collection breaks immediately, the empty vote set commits vacuously, and
only the decision record is logged. -/
def coordAfterC9 : Coordinator :=
  ⟨CoordinatorState.Quiescent, true,
   [⟨MessageType.CoordinatorCommit, "client_0_op_1", "client_0", 1⟩],
   1, 0, 0, 0, 0⟩

/-- The events of the zero-participant run of `req0`: no participant is ever
contacted; only the decision log append and the client reply happen. -/
def eventsC9 : List CoordEvent :=
  [CoordEvent.logAppend ⟨MessageType.CoordinatorCommit, "client_0_op_1", "client_0", 1⟩,
   CoordEvent.sendClient "client_0"
     ⟨MessageType.ClientResultCommit, "client_0_op_1", "client_0", 1, RequestStatus.Unknown⟩]

/-- `decideVotes` yields `CoordinatorCommit` exactly when every collected vote
is `ParticipantVoteCommit`. -/
lemma decideVotes_eq_commit_iff (votes : List MessageType) :
    decideVotes votes = MessageType.CoordinatorCommit ↔
      ∀ v ∈ votes, v = MessageType.ParticipantVoteCommit := by
  unfold decideVotes
  split <;> rename_i h <;> simp only [List.all_eq_true, decide_eq_true_eq] at h
  · simpa using h
  · simpa using h

/-- `decideVotes` only ever returns one of the two decision kinds. -/
lemma decideVotes_cases (votes : List MessageType) :
    decideVotes votes = MessageType.CoordinatorCommit ∨
      decideVotes votes = MessageType.CoordinatorAbort := by
  unfold decideVotes
  split
  · exact Or.inl rfl
  · exact Or.inr rfl

/-- `collect_votes` never touches the global decision counters, the state
field or the running flag, and only ever appends to the log. -/
lemma collect_votes_frame (n : Nat) :
    ∀ (polls : List PollResult) (s : Coordinator) (votes : List MessageType)
      (s' : Coordinator) (votes' : List MessageType),
      collect_votes n polls s votes = some (s', votes') →
      s'.global_commit = s.global_commit ∧ s'.global_abort = s.global_abort ∧
        s'.running = s.running ∧ s'.state = s.state ∧ s.log <+: s'.log := by
  intro polls
  induction polls with
  | nil =>
    intro s votes s' votes' h
    simp [collect_votes] at h
  | cons p rest ih =>
    intro s votes s' votes' h
    cases p with
    | msg m =>
      obtain ⟨mt, txid, senderid, opid, rs⟩ := m
      cases mt <;> simp only [collect_votes] at h <;>
        first
          | exact ih _ _ _ _ h
          | · obtain ⟨h1, h2, h3, h4, h5⟩ := ih _ _ _ _ h
              refine ⟨h1, h2, h3, h4, ?_⟩
              exact List.IsPrefix.trans (List.prefix_append _ _) h5
    | empty timedOut =>
      simp only [collect_votes] at h
      split at h
      · obtain ⟨rfl, rfl⟩ := by simpa using h
        exact ⟨rfl, rfl, rfl, rfl, List.prefix_refl _⟩
      · split at h
        · obtain ⟨rfl, rfl⟩ := by simpa using h
          exact ⟨rfl, rfl, rfl, rfl, List.prefix_append _ _⟩
        · exact ih _ _ _ _ h
    | ipcError =>
      simp only [collect_votes] at h
      exact ih _ _ _ _ h

/-- C1: For every processed ClientRequest, the coordinator decides
`CoordinatorCommit` iff every vote accumulated by `collect_votes` is
`ParticipantVoteCommit`; any `ParticipantVoteAbort` vote (including the
synthetic abort a timeout adds) yields `CoordinatorAbort`; and exactly one of
`global_commit` / `global_abort` is incremented by one for the request. -/
theorem coordinator_decision_rule (participants clients : List String)
    (message : ProtocolMessage) (polls : List PollResult) (s s' : Coordinator)
    (decision : MessageType) (votes : List MessageType) (events : List CoordEvent)
    (h : receive_client_request_once participants clients message polls s =
      some (s', decision, votes, events)) :
    (decision = MessageType.CoordinatorCommit ↔
        ∀ v ∈ votes, v = MessageType.ParticipantVoteCommit) ∧
    ((∃ v ∈ votes, v = MessageType.ParticipantVoteAbort) →
        decision = MessageType.CoordinatorAbort) ∧
    (decision = MessageType.CoordinatorCommit →
        s'.global_commit = s.global_commit + 1 ∧ s'.global_abort = s.global_abort) ∧
    (decision = MessageType.CoordinatorAbort →
        s'.global_abort = s.global_abort + 1 ∧ s'.global_commit = s.global_commit) ∧
    s'.global_commit + s'.global_abort = s.global_commit + s.global_abort + 1 := by
  unfold receive_client_request_once at h
  cases hcv : collect_votes participants.length polls s [] with
  | none => rw [hcv] at h; simp at h
  | some r =>
    obtain ⟨s1, votes1⟩ := r
    rw [hcv] at h
    obtain ⟨hfr1, hfr2, -, -, -⟩ :=
      collect_votes_frame participants.length polls s [] s1 votes1 hcv
    by_cases hd : decideVotes votes1 = MessageType.CoordinatorCommit
    · simp only [send_decision_message, hd, reduceIte, Option.some.injEq,
        Prod.mk.injEq] at h
      obtain ⟨hs', hdec, hvotes, -⟩ := h
      rw [hvotes] at hd
      subst hs'
      refine ⟨⟨fun _ => (decideVotes_eq_commit_iff votes).mp hd, fun _ => hdec.symm⟩,
        ?_, ?_, ?_, ?_⟩
      · rintro ⟨v, hv, rfl⟩
        have := (decideVotes_eq_commit_iff votes).mp hd _ hv
        exact absurd this (by simp)
      · intro _
        exact ⟨by simp [hfr1], by simp [hfr2]⟩
      · intro hc
        rw [← hdec] at hc
        exact absurd hc (by simp)
      · simp only [Coordinator.global_commit, Coordinator.global_abort]
        simp [hfr1, hfr2]
        omega
    · have hd2 : decideVotes votes1 = MessageType.CoordinatorAbort :=
        (decideVotes_cases votes1).resolve_left hd
      simp only [send_decision_message, hd2, reduceCtorEq, reduceIte,
        Option.some.injEq, Prod.mk.injEq] at h
      obtain ⟨hs', hdec, hvotes, -⟩ := h
      rw [hvotes] at hd hd2
      subst hs'
      refine ⟨⟨fun hc => absurd (hdec ▸ hc) (by simp), fun hall =>
        absurd ((decideVotes_eq_commit_iff votes).mpr hall) hd⟩, ?_, ?_, ?_, ?_⟩
      · intro _
        exact hdec.symm
      · intro hc
        rw [← hdec] at hc
        exact absurd hc (by simp)
      · intro _
        exact ⟨by simp [hfr2], by simp [hfr1]⟩
      · simp only [Coordinator.global_commit, Coordinator.global_abort]
        simp [hfr1, hfr2]
        omega

/-- Witness for C1: a one-participant run whose single vote is a commit vote
is decided `CoordinatorCommit`. -/
theorem coordinator_decision_rule_witness :
    MessageType.CoordinatorCommit = MessageType.CoordinatorCommit ↔
      ∀ v ∈ [MessageType.ParticipantVoteCommit],
        v = MessageType.ParticipantVoteCommit :=
  (coordinator_decision_rule ["participant_0"] ["client_0"] req0
    [PollResult.msg voteCommitMsg0, PollResult.empty false] coord0
    coordAfterC1 MessageType.CoordinatorCommit [MessageType.ParticipantVoteCommit]
    eventsC1 (by decide)).1

/-- C2 counterexample: with one participant, the events of
`send_decision_message` are the send followed by the log append, so it is
false that the log append of the decision precedes every participant send. -/
theorem decision_append_before_send_refuted :
    ¬ (∀ i j : Fin ((send_decision_message ["participant_0"]
          ⟨MessageType.CoordinatorCommit, "client_0_op_1", "client_0", 1,
           RequestStatus.Unknown⟩ coord0).2.length),
        ((send_decision_message ["participant_0"]
          ⟨MessageType.CoordinatorCommit, "client_0_op_1", "client_0", 1,
           RequestStatus.Unknown⟩ coord0).2.get i).isLogAppend = true →
        ((send_decision_message ["participant_0"]
          ⟨MessageType.CoordinatorCommit, "client_0_op_1", "client_0", 1,
           RequestStatus.Unknown⟩ coord0).2.get j).isSend = true →
        (i : Nat) < (j : Nat)) := by
  decide

/-- C2 amended: `send_decision_message` appends the decision record to the
coordinator oplog only after sending the decision to every participant: every
send event precedes the log-append event. -/
theorem decision_sent_before_append (participants : List String)
    (decision : ProtocolMessage) (s : Coordinator) (i j : Nat)
    (hi : i < (send_decision_message participants decision s).2.length)
    (hj : j < (send_decision_message participants decision s).2.length)
    (hsend : ((send_decision_message participants decision s).2.get ⟨i, hi⟩).isSend = true)
    (happ : ((send_decision_message participants decision s).2.get ⟨j, hj⟩).isLogAppend = true) :
    i < j := by
  simp only [send_decision_message, List.get_eq_getElem, List.length_append,
    List.length_map, List.length_singleton] at hi hj hsend happ
  have hi2 : i < participants.length := by
    by_contra hni
    push_neg at hni
    have hie : i = participants.length := by omega
    subst hie
    rw [List.getElem_append_right (by simp)] at hsend
    simp [CoordEvent.isSend] at hsend
  have hj2 : participants.length ≤ j := by
    by_contra hnj
    push_neg at hnj
    rw [List.getElem_append_left (by simpa using hnj)] at happ
    rw [List.getElem_map] at happ
    simp [CoordEvent.isLogAppend] at happ
  omega

/-- Witness for C2 amended: in the one-participant trace the send (index 0)
precedes the append (index 1). -/
theorem decision_sent_before_append_witness : (0 : Nat) < 1 :=
  decision_sent_before_append ["participant_0"]
    ⟨MessageType.CoordinatorCommit, "client_0_op_1", "client_0", 1,
     RequestStatus.Unknown⟩ coord0 0 1 (by decide) (by decide) (by decide)
    (by decide)

/-- C3: evaluation of `Participant.send` at a concrete input. The
participant is `"participant_0"` with `send_success_prob = 1` and the vote
message carries `senderid = "client_0"`; the draw `0` is below the success
probability, so the message is transmitted — but the transmitted message is
the original `pm` with `senderid = "client_0"`, not the copy rewritten to the
participant id (the commit counter is incremented as described). -/
theorem send_transmits_original_senderid :
    (part0.send voteCommitMsg0 0).2 = some voteCommitMsg0 ∧
    voteCommitMsg0.senderid = "client_0" ∧
    part0.id_str = "participant_0" ∧
    Option.map ProtocolMessage.senderid (part0.send voteCommitMsg0 0).2 ≠
      some part0.id_str ∧
    (part0.send voteCommitMsg0 0).1.commit = part0.commit + 1 := by
  decide

/-- C4 counterexample: a participant that handles `CoordinatorExit` does exit
its loop, but its oplog is left unchanged (here: empty), so the log contains
no `CoordinatorExit` record, contrary to the claim. -/
theorem coordinator_exit_unlogged :
    (part0.protocolStep exitMsg0 0 0).2.1 = false ∧
    (part0.protocolStep exitMsg0 0 0).1.log = [] ∧
    (part0.protocolStep exitMsg0 0 0).1 = part0 := by
  decide

/-- C4 amended: on `CoordinatorExit` the participant breaks out of its
receive loop immediately, before the trailing oplog append, leaving its state
(including the log) unchanged and transmitting nothing. -/
theorem coordinator_exit_breaks_immediately (p : Participant)
    (m : ProtocolMessage) (xOp xSend : ℚ)
    (hm : m.mtype = MessageType.CoordinatorExit) :
    p.protocolStep m xOp xSend = (p, false, none) := by
  obtain ⟨mt, tx, sid, opid, rs⟩ := m
  cases mt <;> simp_all [Participant.protocolStep]

/-- Witness for C4 amended: the concrete exit broadcast leaves `part0`
unchanged and stops the loop. -/
theorem coordinator_exit_breaks_immediately_witness :
    Participant.protocolStep part0 exitMsg0 0 0 =
      (part0, false, (none : Option ProtocolMessage)) :=
  coordinator_exit_breaks_immediately part0 exitMsg0 0 0 rfl

/-- C5: every vote the coordinator accepts during vote collection — commit or
abort alike — is appended to the oplog as a record of kind
`ParticipantVoteCommit` carrying the vote message's txid, senderid and opid;
the record lands at the next log position. -/
theorem accepted_vote_logged_as_commit (n : Nat) (m : ProtocolMessage)
    (rest : List PollResult) (s s' : Coordinator)
    (votes votes' : List MessageType)
    (hm : m.mtype = MessageType.ParticipantVoteCommit ∨
          m.mtype = MessageType.ParticipantVoteAbort)
    (h : collect_votes n (PollResult.msg m :: rest) s votes = some (s', votes')) :
    (s'.log)[s.log.length]? =
      some ⟨MessageType.ParticipantVoteCommit, m.txid, m.senderid, m.opid⟩ := by
  obtain ⟨mt, tx, sid, opid, rs⟩ := m
  rcases hm with hm | hm <;>
    simp only at hm <;> subst hm <;>
    simp only [collect_votes] at h <;>
    obtain ⟨-, -, -, -, t, ht⟩ := collect_votes_frame n rest _ _ s' votes' h <;>
    rw [← ht, List.getElem?_append_left (by simp), List.getElem?_concat_length]

/-- Witness for C5: accepting the concrete abort vote `voteAbortMsg0` logs a
`ParticipantVoteCommit` record carrying the vote's fields. -/
theorem accepted_vote_logged_as_commit_witness :
    (coordAfterC5.log)[coord0.log.length]? =
      some ⟨MessageType.ParticipantVoteCommit, "client_0_op_1", "client_0", 1⟩ :=
  accepted_vote_logged_as_commit 1 voteAbortMsg0 [PollResult.empty false]
    coord0 coordAfterC5 [] [MessageType.ParticipantVoteAbort]
    (Or.inr rfl) (by decide)

/-- C6: if the vote-collection idle timeout fires while the vote count has
not reached the participant count, `collect_votes` increments `unknown`,
appends the synthetic `ParticipantVoteAbort` record with txid "None",
senderid "None", opid 0, adds an abort vote, and returns normally (the
resulting vote set is decided `CoordinatorAbort`). -/
theorem vote_timeout_synthesizes_abort (n : Nat) (rest : List PollResult)
    (s : Coordinator) (votes : List MessageType) (hne : votes.length ≠ n) :
    collect_votes n (PollResult.empty true :: rest) s votes =
      some ({ s with unknown := s.unknown + 1,
                     log := s.log ++ [⟨MessageType.ParticipantVoteAbort, "None", "None", 0⟩] },
            votes ++ [MessageType.ParticipantVoteAbort]) ∧
    decideVotes (votes ++ [MessageType.ParticipantVoteAbort]) =
      MessageType.CoordinatorAbort := by
  constructor
  · simp [collect_votes, hne]
  · simp [decideVotes]

/-- Witness for C6: with one registered participant and no vote received, the
timeout poll produces the synthetic abort record and a global abort. -/
theorem vote_timeout_synthesizes_abort_witness :
    collect_votes 1 [PollResult.empty true] coord0 [] =
      some ({ coord0 with unknown := coord0.unknown + 1,
                          log := coord0.log ++
                            [⟨MessageType.ParticipantVoteAbort, "None", "None", 0⟩] },
            [] ++ [MessageType.ParticipantVoteAbort]) ∧
    decideVotes ([] ++ [MessageType.ParticipantVoteAbort]) =
      MessageType.CoordinatorAbort :=
  vote_timeout_synthesizes_abort 1 [] coord0 [] (by decide)

/-- C7: after deciding, the coordinator's last action for the request is the
client reply: `ClientResultCommit` on a commit decision and
`ClientResultAbort` otherwise, sent to the client named by the request's
senderid; when that name is absent from the client table the last action is
the "No client exists" log line, and processing still returns normally. -/
theorem client_reply_matches_decision (participants clients : List String)
    (message : ProtocolMessage) (polls : List PollResult) (s s' : Coordinator)
    (decision : MessageType) (votes : List MessageType) (events : List CoordEvent)
    (h : receive_client_request_once participants clients message polls s =
      some (s', decision, votes, events)) :
    (clients.contains message.senderid = true →
      events.getLast? = some (CoordEvent.sendClient message.senderid
        { message with mtype :=
            if decision = MessageType.CoordinatorCommit then
              MessageType.ClientResultCommit
            else MessageType.ClientResultAbort })) ∧
    (clients.contains message.senderid = false →
      events.getLast? = some CoordEvent.printNoClient) := by
  unfold receive_client_request_once at h
  cases hcv : collect_votes participants.length polls s [] with
  | none => rw [hcv] at h; simp at h
  | some r =>
    obtain ⟨s1, votes1⟩ := r
    rw [hcv] at h
    simp only [send_decision_message, Option.some.injEq, Prod.mk.injEq] at h
    obtain ⟨-, hdec, -, hev⟩ := h
    subst hdec
    constructor
    · intro hc
      rw [← hev]
      simp only [hc, if_true]
      rw [List.getLast?_append_of_ne_nil _ (by simp)]
      rfl
    · intro hc
      rw [← hev]
      simp only [hc, Bool.false_eq_true, if_false]
      rw [List.getLast?_append_of_ne_nil _ (by simp)]
      rfl

/-- Witness for C7: in the one-participant commit run of `req0` the final
event is the `ClientResultCommit` reply to `client_0`. -/
theorem client_reply_matches_decision_witness :
    ((["client_0"] : List String).contains req0.senderid = true →
      eventsC1.getLast? = some (CoordEvent.sendClient req0.senderid
        { req0 with mtype :=
            if MessageType.CoordinatorCommit = MessageType.CoordinatorCommit then
              MessageType.ClientResultCommit
            else MessageType.ClientResultAbort })) ∧
    ((["client_0"] : List String).contains req0.senderid = false →
      eventsC1.getLast? = some CoordEvent.printNoClient) :=
  client_reply_matches_decision ["participant_0"] ["client_0"] req0
    [PollResult.msg voteCommitMsg0, PollResult.empty false] coord0
    coordAfterC1 MessageType.CoordinatorCommit [MessageType.ParticipantVoteCommit]
    eventsC1 (by decide)

/-- C8: the behaviour of `collect_votes` — its log appends, per-vote
counters, collected votes and the decision they induce — does not depend on
the value of the `running` flag: two collections that differ only in whether
`running` was cleared produce identical observables. -/
theorem collect_votes_ignores_running (n : Nat) (polls : List PollResult)
    (s : Coordinator) (votes : List MessageType) (b1 b2 : Bool) :
    voteObservables (collect_votes n polls { s with running := b1 } votes) =
    voteObservables (collect_votes n polls { s with running := b2 } votes) := by
  induction polls generalizing s votes with
  | nil => rfl
  | cons p rest ih =>
    obtain ⟨st, run, lg, gc, cm, ga, ab, un⟩ := s
    cases p with
    | msg m =>
      obtain ⟨mt, tx, sid, opid, rs⟩ := m
      cases mt
      case ParticipantVoteCommit =>
        exact ih ⟨st, run, lg ++ [⟨MessageType.ParticipantVoteCommit, tx, sid, opid⟩],
          gc, cm + 1, ga, ab, un⟩ (votes ++ [MessageType.ParticipantVoteCommit])
      case ParticipantVoteAbort =>
        exact ih ⟨st, run, lg ++ [⟨MessageType.ParticipantVoteCommit, tx, sid, opid⟩],
          gc, cm, ga, ab + 1, un⟩ (votes ++ [MessageType.ParticipantVoteAbort])
      all_goals exact ih ⟨st, run, lg, gc, cm, ga, ab, un⟩ votes
    | empty t =>
      simp only [collect_votes]
      by_cases hl : votes.length = n
      · simp [hl, voteObservables]
      · cases t
        · simp only [if_neg hl, Bool.false_eq_true, if_false]
          exact ih ⟨st, run, lg, gc, cm, ga, ab, un⟩ votes
        · simp [hl, voteObservables]
    | ipcError =>
      exact ih ⟨st, run, lg, gc, cm, ga, ab, un⟩ votes

/-- C9: with zero registered participants, vote collection breaks on its
first empty poll with an empty vote list, the all-commit test holds
vacuously, and the request is decided `CoordinatorCommit` (bumping
`global_commit`) with no message ever sent to a participant. -/
theorem zero_participants_vacuous_commit (clients : List String)
    (message : ProtocolMessage) (b : Bool) (rest : List PollResult)
    (s s' : Coordinator) (decision : MessageType) (votes : List MessageType)
    (events : List CoordEvent)
    (h : receive_client_request_once [] clients message
          (PollResult.empty b :: rest) s = some (s', decision, votes, events)) :
    votes = [] ∧ decision = MessageType.CoordinatorCommit ∧
    collect_votes 0 (PollResult.empty b :: rest) s [] = some (s, []) ∧
    s'.global_commit = s.global_commit + 1 ∧ s'.global_abort = s.global_abort ∧
    ∀ e ∈ events, e.isSend = false := by
  have hcv : collect_votes 0 (PollResult.empty b :: rest) s [] = some (s, []) := by
    simp [collect_votes]
  unfold receive_client_request_once at h
  simp only [List.length_nil] at h
  rw [hcv] at h
  simp only [send_decision_message, send_prepare_message, decideVotes,
    List.map_nil, List.nil_append, List.all_nil, if_true,
    Option.some.injEq, Prod.mk.injEq] at h
  obtain ⟨hs, hdec, hvotes, hev⟩ := h
  refine ⟨hvotes.symm, hdec.symm, hcv, ?_, ?_, ?_⟩
  · rw [← hs]
  · rw [← hs]
  · intro e he
    rw [← hev] at he
    simp only [List.mem_append, List.mem_singleton] at he
    rcases he with rfl | he
    · rfl
    · split at he <;> simp only [List.mem_singleton] at he <;> subst he <;> rfl

/-- Witness for C9: processing `req0` with zero participants and an
immediately empty participant channel yields the empty vote list. -/
theorem zero_participants_vacuous_commit_witness :
    collect_votes 0 [PollResult.empty false] coord0 [] = some (coord0, []) :=
  (zero_participants_vacuous_commit ["client_0"] req0 false [] coord0
    coordAfterC9 MessageType.CoordinatorCommit [] eventsC9 (by decide)).2.2.1

/-- C10: every message a participant handles without breaking out of its
loop ends with the received message itself — original mtype, txid, senderid,
opid — appended to its oplog; a handled `CoordinatorPropose` contributes
exactly two records, the vote record written by `perform_operation` followed
by the `CoordinatorPropose` record, and every other such message exactly
one. -/
theorem participant_logs_handled_message (p : Participant)
    (m : ProtocolMessage) (xOp xSend : ℚ)
    (hm : m.mtype ≠ MessageType.CoordinatorExit) :
    (p.protocolStep m xOp xSend).2.1 = true ∧
    (p.protocolStep m xOp xSend).1.log.getLast? =
      some ⟨m.mtype, m.txid, m.senderid, m.opid⟩ ∧
    (m.mtype = MessageType.CoordinatorPropose →
      (p.protocolStep m xOp xSend).1.log =
        p.log ++ [⟨if xOp ≤ p.operation_success_prob then
                     MessageType.ParticipantVoteCommit
                   else MessageType.ParticipantVoteAbort, m.txid, m.senderid, m.opid⟩,
                  ⟨MessageType.CoordinatorPropose, m.txid, m.senderid, m.opid⟩]) ∧
    (m.mtype ≠ MessageType.CoordinatorPropose →
      (p.protocolStep m xOp xSend).1.log =
        p.log ++ [⟨m.mtype, m.txid, m.senderid, m.opid⟩]) := by
  obtain ⟨mt, tx, sid, opid, rs⟩ := m
  cases mt
  case CoordinatorExit => exact absurd rfl hm
  case CoordinatorPropose =>
    by_cases hop : xOp ≤ p.operation_success_prob <;>
      by_cases hs : xSend ≤ p.send_success_prob <;>
      simp [Participant.protocolStep, Participant.perform_operation,
        Participant.send, hop, hs, List.getLast?_concat]
  all_goals simp [Participant.protocolStep, List.getLast?_concat]

/-- Witness for C10: handling the concrete proposal `proposeMsg0` leaves the
loop running. -/
theorem participant_logs_handled_message_witness :
    (part0.protocolStep proposeMsg0 0 0).2.1 = true :=
  (participant_logs_handled_message part0 proposeMsg0 0 0 (by decide)).1

end TwoPC
